import Mathlib

/-!
Verification of the TimeBasedVerification repository scripts.

The repository holds two Python scripts:
* `FileHeaders.py` — a utility that adds headers/footers to files; its core
  logic is `apply_footers_and_headers` plus module-level spec parsing, the
  whitespace policy and the empty-spec check.
* `BitwiseTheoryParameterGenerator.py` — a random bit-pattern generator.

Strings are modelled as `List Char`; the Python string primitives the code
uses (`strip`, `isspace`, `find`/`index`, `replace`, slicing) are embedded
below with Python's semantics.
-/

/-- Python whitespace characters (the ASCII ones, which `str.strip` and
`str.isspace` treat as whitespace). -/
def isPySpace (c : Char) : Bool :=
  c == ' ' || c == '\t' || c == '\n' || c == '\r' || c == '\x0b' || c == '\x0c'

/-- Python `str.isspace`: non-empty and all characters whitespace. -/
def pyIsSpace (s : List Char) : Bool :=
  !s.isEmpty && s.all isPySpace

/-- Python `str.strip`: remove leading and trailing whitespace. -/
def pyStrip (s : List Char) : List Char :=
  ((s.dropWhile isPySpace).reverse.dropWhile isPySpace).reverse

/-- Index of the first occurrence of `needle` in the haystack, if any
(the semantics of Python `str.find` / `str.index`). -/
def findSub (needle : List Char) : List Char → Option Nat
  | [] => if needle.isEmpty then some 0 else none
  | c :: rest =>
    if needle.isPrefixOf (c :: rest) then some 0
    else (findSub needle rest).map (· + 1)

/-- Python `str.find`: first-occurrence index, `-1` when absent. -/
def pyFind (hay needle : List Char) : Int :=
  match findSub needle hay with
  | none => -1
  | some n => (n : Int)

/-- Python `str.index` as an `Option` (Python raises `ValueError` on absence). -/
def pyIndexOpt (hay needle : List Char) : Option Nat :=
  findSub needle hay

/-- Clamp a Python slice bound to an index into a list of length `n`
(negative bounds count from the end, everything is clamped to `[0, n]`). -/
def pyIdx (n : Nat) (i : Int) : Nat :=
  if i < 0 then (i + n).toNat else min i.toNat n

/-- Python slicing `l[i:j]`. -/
def pySlice (l : List Char) (i j : Int) : List Char :=
  (l.take (pyIdx l.length j)).drop (pyIdx l.length i)

/-- One fuel-indexed pass of Python `str.replace`: left-to-right,
non-overlapping occurrences of `old` are replaced by `new`. The fuel is
always at least the length of the scanned list, so it never runs out. -/
def replaceLoop (old new : List Char) : Nat → List Char → List Char
  | _, [] => []
  | 0, l => l
  | fuel + 1, c :: rest =>
    if !old.isEmpty && old.isPrefixOf (c :: rest) then
      new ++ replaceLoop old new fuel (rest.drop (old.length - 1))
    else
      c :: replaceLoop old new fuel rest

/-- Python `str.replace s old new` (for non-empty `old`, as used here). -/
def pyReplace (s old new : List Char) : List Char :=
  replaceLoop old new s.length s

/-- Writing `x` at position 0 of a file currently holding `raw`, without
truncation (Python `seek(0)` followed by `write` on an `r+` handle): bytes
beyond the written region survive. -/
def writeAt0 (raw x : List Char) : List Char :=
  x ++ raw.drop x.length

/-! Constants of `FileHeaders.py`. -/

def HEADER_START_TAG : List Char := ">>>HEADER_START<<<".data
def HEADER_END_TAG : List Char := ">>>HEADER_END<<<".data
def FOOTER_START_TAG : List Char := ">>>FOOTER_START<<<".data
def FOOTER_END_TAG : List Char := ">>>FOOTER_END<<<".data
def FILE_NAME_TAG : List Char := "{FILE_NAME}".data
def FOLDER_NAME_TAG : List Char := "{FOLDER_NAME}".data

def NO_HEADER_OR_FOOTER : Int := 0
def HAS_HEADER : Int := 1
def HAS_FOOTER : Int := 2
def HAS_HEADER_AND_FOOTER : Int := 4

/-- The four detection outcomes of the `detect_header` branch of
`apply_footers_and_headers` (the spec's `DetectionResult`). -/
inductive DetectionResult where
  | AlreadyPresent
  | FooterOnlyPresent
  | HeaderOnlyPresent
  | NeitherPresent
  deriving DecidableEq

/-- The detection cascade of `apply_footers_and_headers` (lines 60–70),
with Python `find`-based checks, in the source's order. -/
def detect (c h f : List Char) : DetectionResult :=
  if pyFind c h == 0 && pyFind c f == (c.length : Int) - (f.length : Int) && !c.isEmpty then
    DetectionResult.AlreadyPresent
  else if pyFind c f == (c.length : Int) - (f.length : Int) && !c.isEmpty && !h.isEmpty then
    DetectionResult.FooterOnlyPresent
  else if pyFind c h == 0 && !f.isEmpty then
    DetectionResult.HeaderOnlyPresent
  else
    DetectionResult.NeitherPresent

/-- What the detection branch writes: `none` means the `continue` path
(nothing written), `some x` means `x` is written at position 0. -/
def applyDetection (c h f : List Char) : Option (List Char) :=
  match detect c h f with
  | DetectionResult.AlreadyPresent => none
  | DetectionResult.FooterOnlyPresent => some (h ++ c)
  | DetectionResult.HeaderOnlyPresent => some (c ++ f)
  | DetectionResult.NeitherPresent => some (h ++ c ++ f)

/-- The file content after the detection-enabled per-file step of
`apply_footers_and_headers` applied to a file holding `raw`: the stripped
content is classified and the chosen text is written at position 0 without
truncation; on the already-present path the file is untouched. -/
def newFileContent (raw th tf : List Char) : List Char :=
  match applyDetection (pyStrip raw) th tf with
  | none => raw
  | some x => writeAt0 raw x

/-- Tag substitution of `apply_footers_and_headers` (lines 51–55):
`{FILE_NAME}` then `{FOLDER_NAME}` are replaced unless tags are disabled. -/
def applyTags (t n fo : List Char) (disable_tags : Bool) : List Char :=
  if disable_tags then t
  else pyReplace (pyReplace t FILE_NAME_TAG n) FOLDER_NAME_TAG fo

/-- A target file as the per-file loop of `apply_footers_and_headers`
sees it: whether opening raises `PermissionError`, the raw content, and
the name/folder values used for tag substitution. -/
structure FileInput where
  denied : Bool
  raw : List Char
  name : List Char
  folder : List Char
  deriving DecidableEq

/-- The options `apply_footers_and_headers` receives (the module-level
`header`/`footer` globals and the two CLI booleans). -/
structure Options where
  header : List Char
  footer : List Char
  disable_tags : Bool
  detect_header : Bool
  deriving DecidableEq

/-- Observable result of one iteration of the per-file loop: the file
content afterwards, whether a handle was opened, whether `close()` ran,
and which per-file message was printed. -/
structure PerFileResult where
  content : List Char
  opened : Bool
  closed : Bool
  printedSkip : Bool
  printedAdded : Bool
  deriving DecidableEq

/-- One iteration of the loop in `apply_footers_and_headers` (lines
41–73): a `PermissionError` prints a skip message and continues; otherwise
tags are substituted, the content is read and stripped, and only when
`detect_header` is set is anything ever written — the already-present
branch leaves via `continue`, skipping both the print and `close()`. -/
def processFile (opts : Options) (fi : FileInput) : PerFileResult :=
  if fi.denied then
    { content := fi.raw, opened := false, closed := false,
      printedSkip := true, printedAdded := false }
  else
    let th := applyTags opts.header fi.name fi.folder opts.disable_tags
    let tf := applyTags opts.footer fi.name fi.folder opts.disable_tags
    if opts.detect_header then
      match applyDetection (pyStrip fi.raw) th tf with
      | none =>
        { content := fi.raw, opened := true, closed := false,
          printedSkip := false, printedAdded := false }
      | some x =>
        { content := writeAt0 fi.raw x, opened := true, closed := true,
          printedSkip := false, printedAdded := true }
    else
      { content := fi.raw, opened := true, closed := true,
        printedSkip := false, printedAdded := true }

/-- `apply_footers_and_headers`: the per-file loop over the batch. -/
def apply_footers_and_headers (opts : Options) (fs : List FileInput) : List PerFileResult :=
  fs.map (processFile opts)

/-! Module-level spec handling: header-file parsing (lines 139–167),
whitespace policy (lines 172–183) and the empty-spec check (lines
186–200). -/

/-- Header extraction (line 150): the slice strictly between the two
marker lines, `none` when either marker is absent (`ValueError`). -/
def extractHeader (content : List Char) : Option (List Char) :=
  match pyIndexOpt content HEADER_START_TAG, pyIndexOpt content HEADER_END_TAG with
  | some i, some j =>
    some (pySlice content ((i : Int) + (HEADER_START_TAG.length : Int) + 1) ((j : Int) - 1))
  | _, _ => none

/-- Footer extraction (line 155), analogous to `extractHeader`. -/
def extractFooter (content : List Char) : Option (List Char) :=
  match pyIndexOpt content FOOTER_START_TAG, pyIndexOpt content FOOTER_END_TAG with
  | some i, some j =>
    some (pySlice content ((i : Int) + (FOOTER_START_TAG.length : Int) + 1) ((j : Int) - 1))
  | _, _ => none

/-- Parsing a header/footer file (lines 146–167). `hdr0`/`ftr0` are the
values `header`/`footer` already hold (the CLI `-t`/`-b` arguments); a
side whose markers are missing keeps that value. The entry state of
`has_header_footer` is `-1`. Returns the new `(header, footer,
has_header_footer)` or the `NO_HEADER_OR_FOOTER` fatal error. -/
def parseHeaderFileContent (content hdr0 ftr0 : List Char) :
    Except Unit (List Char × List Char × Int) :=
  match extractHeader content, extractFooter content with
  | none, none => Except.error ()
  | none, some f => Except.ok (hdr0, f, HAS_FOOTER)
  | some h, none => Except.ok (h, ftr0, HAS_HEADER)
  | some h, some f => Except.ok (h, f, HAS_HEADER_AND_FOOTER)

/-- The whitespace policy (lines 172–183): with `allowWs` unset, a
whitespace-only header or footer is cleared, updating
`has_header_footer`; a cleared footer aborts when the state already says
footer-only. -/
def wsStep (hdr ftr : List Char) (hasIn : Int) (allowWs : Bool) :
    Except Unit (List Char × List Char × Int) :=
  if allowWs then Except.ok (hdr, ftr, hasIn)
  else
    let h1 := if pyIsSpace hdr then ([] : List Char) else hdr
    let s1 := if pyIsSpace hdr then HAS_FOOTER else hasIn
    if pyIsSpace ftr then
      if s1 == HAS_FOOTER then Except.error ()
      else Except.ok (h1, [], HAS_HEADER)
    else Except.ok (h1, ftr, s1)

/-- The empty-spec check (lines 186–200): abort when both sides are
empty; otherwise refresh `has_header_footer`, aborting when the footer is
empty while the state says footer-only. -/
def emptyCheck (hdr ftr : List Char) (has : Int) :
    Except Unit (List Char × List Char × Int) :=
  if hdr.isEmpty && ftr.isEmpty then Except.error ()
  else
    let hasA := if hdr.isEmpty then HAS_FOOTER else has
    if ftr.isEmpty then
      if hasA == HAS_FOOTER then Except.error ()
      else Except.ok (hdr, ftr, HAS_HEADER)
    else Except.ok (hdr, ftr, if hasA == (-1 : Int) then HAS_HEADER_AND_FOOTER else hasA)

/-- Whitespace policy followed by the empty-spec check. -/
def wsAndEmptyCheck (hdr ftr : List Char) (hasIn : Int) (allowWs : Bool) :
    Except Unit (List Char × List Char × Int) :=
  match wsStep hdr ftr hasIn allowWs with
  | Except.error e => Except.error e
  | Except.ok (h, f, s) => emptyCheck h f s

/-- A side of the spec after the clearing of lines 173–177: whitespace-only
text becomes empty, anything else is kept. -/
def clearWS (s : List Char) : List Char :=
  if pyIsSpace s then [] else s

/-- The run from the whitespace policy onwards: on an empty-spec abort no
file is touched; otherwise `'\n'` is glued onto the non-empty sides (lines
215–218) and the batch is processed. Returns each file's final content. -/
def runFiles (hdr ftr : List Char) (hasIn : Int)
    (allowWs disable_tags detect_header : Bool) (fs : List FileInput) :
    List (List Char) :=
  match wsAndEmptyCheck hdr ftr hasIn allowWs with
  | Except.error _ => fs.map (·.raw)
  | Except.ok (h, f, _) =>
    (apply_footers_and_headers
      { header := if h.isEmpty then h else h ++ ['\n'],
        footer := if f.isEmpty then f else '\n' :: f,
        disable_tags := disable_tags, detect_header := detect_header } fs).map (·.content)

/-! `BitwiseTheoryParameterGenerator.py` with `bits = 64`. The random
digits are modelled as an arbitrary list `ds` of `'0'`/`'1'` characters;
`raw_numerical` is exactly `ds`. -/

/-- The first loop of the generator: the digit part of
`unsigned_numerical`, with an underscore inserted before each digit whose
loop index is divisible by 8. -/
def buildUnsigned : Nat → List Char → List Char
  | _, [] => []
  | i, d :: rest => (if i % 8 == 0 then ['_'] else []) ++ d :: buildUnsigned (i + 1) rest

/-- The printed binary literal `unsigned_numerical`. -/
def unsignedNumerical (ds : List Char) : List Char :=
  '0' :: 'b' :: buildUnsigned 0 ds

/-- The digits of the `i`-th printed byte (second loop): the characters
`raw_numerical[x]` for `x` in `[64 - (i+1)*8, 64 - (i+1)*8 + 8)`, i.e.
that slice of the digit list. -/
def byteChunk (ds : List Char) (i : Nat) : List Char :=
  (ds.drop (64 - (i + 1) * 8)).take 8

/-- The accumulated `byte_array` string: `", 0b_"` before each byte. -/
def byteArrayRaw (ds : List Char) : List Char :=
  ((List.range 8).map (fun i => ", 0b_".data ++ byteChunk ds i)).flatten

/-- The printed byte-array line (`removeprefix(", ")` applied). -/
def byteArrayLine (ds : List Char) : List Char :=
  if ", ".data.isPrefixOf (byteArrayRaw ds) then (byteArrayRaw ds).drop 2
  else byteArrayRaw ds

/-- The digit sequence of a printed binary literal: drop the `0b` and
remove the grouping underscores. -/
def stripLiteral (l : List Char) : List Char :=
  (l.drop 2).filter (fun c => c != '_')

example : pyStrip "  ab c\n".data = "ab c".data := by decide
example : pyFind "HbodyF".data "F".data = 5 := by decide
example : pyFind "body".data "H".data = -1 := by decide
example : pyFind "body".data "".data = 0 := by decide
example : detect "HbodyF".data "H".data "F".data = DetectionResult.AlreadyPresent := by decide
example : detect "Hbody".data "H".data "".data = DetectionResult.NeitherPresent := by decide
example : newFileContent "body".data "H\n".data "\nF".data = "H\nbody\nF".data := by decide
example : pyReplace "{FILE_NAME} and {FOLDER_NAME}".data FILE_NAME_TAG "a.txt".data = "a.txt and {FOLDER_NAME}".data := by decide
example : applyTags "{FILE_NAME} and {FOLDER_NAME}".data "a.txt".data "src".data false = "a.txt and src".data := by decide
example :
    (processFile { header := "H\n".data, footer := "\nF".data, disable_tags := true, detect_header := false }
      { denied := false, raw := "body".data, name := [], folder := [] }).content = "body".data := by decide
example :
    extractHeader (HEADER_START_TAG ++ '\n' :: ("my header".data ++ '\n' :: HEADER_END_TAG)) =
      some "my header".data := by decide
example : wsAndEmptyCheck "   ".data "F".data (-1) false = Except.ok ([], "F".data, HAS_FOOTER) := rfl
example : wsAndEmptyCheck "H".data " ".data HAS_FOOTER false = Except.error () := rfl
example : wsAndEmptyCheck "".data " ".data (-1) false = Except.error () := rfl
example : wsAndEmptyCheck "H".data "F".data (-1) false = Except.ok ("H".data, "F".data, HAS_HEADER_AND_FOOTER) := rfl

/-! Helper lemmas shared by several developments below. -/

lemma listIsEmpty_iff (l : List Char) : l.isEmpty = true ↔ l = [] := by
  cases l <;> simp

lemma applyDetection_eq_none_iff (c th tf : List Char) :
    applyDetection c th tf = none ↔ detect c th tf = DetectionResult.AlreadyPresent := by
  unfold applyDetection
  cases hd : detect c th tf <;> simp

/-- C1: the claim says that with `detect_header` false the per-file step
replaces content `"body"` (given header `"H\n"`, footer `"\nF"`) by
`"H\nbody\nF"`. In the code every `write` sits inside the
`if detect_header:` block, so with detection disabled nothing is written:
the file keeps `"body"` even though the added-header message is printed. -/
theorem fileheaders_detection_disabled_writes_nothing :
    (processFile
        { header := "H\n".data, footer := "\nF".data,
          disable_tags := true, detect_header := false }
        { denied := false, raw := "body".data, name := [], folder := [] }).content
      = "body".data
    ∧ (processFile
        { header := "H\n".data, footer := "\nF".data,
          disable_tags := true, detect_header := false }
        { denied := false, raw := "body".data, name := [], folder := [] }).printedAdded
      = true
    ∧ ("body".data : List Char) ≠ "H\nbody\nF".data := by
  refine ⟨rfl, rfl, by decide⟩

/-- C7: the claim says a modified file holds exactly the computed new
content. The code writes with `seek(0)` on an `r+` handle and never
truncates, so when the written text is shorter than the original raw
content the original's tail survives: a file holding ten spaces followed
by `body`, processed with header `"H"` and empty footer under detection,
ends as `"Hbody     body"` instead of the computed `"Hbody"`. -/
theorem fileheaders_write_leaves_residual_bytes :
    (processFile
        { header := "H".data, footer := [], disable_tags := true, detect_header := true }
        { denied := false, raw := "          body".data, name := [], folder := [] }).content
      = "Hbody     body".data
    ∧ (processFile
        { header := "H".data, footer := [], disable_tags := true, detect_header := true }
        { denied := false, raw := "          body".data, name := [], folder := [] }).content
      ≠ "Hbody".data := by
  refine ⟨by decide, by decide⟩

/-- C2 counterexample: with header `"H"` and empty footer (one side
non-empty, as the claim allows) the detection-enabled step applied to its
own output `"Hbody"` produces `"HHbody"`: the header is duplicated, so
the computation is not idempotent as claimed. -/
theorem fileheaders_detect_step_not_idempotent :
    (("H".data : List Char) ≠ [] ∨ ("".data : List Char) ≠ [])
    ∧ newFileContent (newFileContent "body".data "H".data "".data) "H".data "".data
      ≠ newFileContent "body".data "H".data "".data := by
  refine ⟨Or.inl (by decide), by decide⟩

/-- C2 amended: the detection-enabled step is idempotent whenever its
first output `Y` is already detected as present — `Y` is non-empty and
strip-invariant, the header's first occurrence in `Y` is at 0, and the
footer's first occurrence in `Y` is exactly at its end. Then the second
run takes the `continue` branch and returns `Y` unchanged. -/
theorem fileheaders_detect_step_idempotent_on_detected
    (raw th tf : List Char)
    (h1 : pyStrip (newFileContent raw th tf) = newFileContent raw th tf)
    (h2 : pyFind (newFileContent raw th tf) th = 0)
    (h3 : pyFind (newFileContent raw th tf) tf
          = ((newFileContent raw th tf).length : Int) - (tf.length : Int))
    (h4 : newFileContent raw th tf ≠ []) :
    newFileContent (newFileContent raw th tf) th tf = newFileContent raw th tf := by
  generalize hY : newFileContent raw th tf = Y at h1 h2 h3 h4 ⊢
  have hempty : Y.isEmpty = false := by
    cases hcs : Y
    · exact absurd hcs h4
    · rfl
  have hdet : detect Y th tf = DetectionResult.AlreadyPresent := by
    unfold detect
    rw [h2, h3, hempty]
    simp
  unfold newFileContent
  rw [h1]
  rw [(applyDetection_eq_none_iff _ _ _).mpr hdet]

/-- C2 witness: with content `"body"`, header `"H\n"`, footer `"\nF"` the
first output is `"H\nbody\nF"` and the second run leaves it unchanged. -/
theorem fileheaders_detect_step_idempotent_witness :
    newFileContent (newFileContent "body".data "H\n".data "\nF".data) "H\n".data "\nF".data
      = newFileContent "body".data "H\n".data "\nF".data :=
  fileheaders_detect_step_idempotent_on_detected "body".data "H\n".data "\nF".data
    (by decide) (by decide) (by decide) (by decide)

/-- C3 counterexample: content `"Hbody"` starts with the header `"H"` and
the footer is empty, so the claim says `AlreadyPresent` and no change; the
code's `find`-based check compares `0 == len(content)` for the empty
footer, fails, falls through to the default branch (`NeitherPresent`) and
writes `"HHbody"`. -/
theorem fileheaders_detect_empty_footer_not_already_present :
    detect "Hbody".data "H".data "".data = DetectionResult.NeitherPresent
    ∧ detect "Hbody".data "H".data "".data ≠ DetectionResult.AlreadyPresent
    ∧ newFileContent "Hbody".data "H".data "".data ≠ "Hbody".data := by
  refine ⟨by decide, by decide, by decide⟩

/-- C3 amended: for non-empty stripped content, if the header's first
occurrence is at 0 (in particular when the header is empty or content
starts with it) and the footer is non-empty with first occurrence exactly
at `len(content) - len(footer)` (hence content ends with it), detection
returns `AlreadyPresent` and the file is left unchanged. An empty footer,
or a footer occurring earlier in the content, defeats detection. -/
theorem fileheaders_detect_already_present
    (raw th tf : List Char)
    (h1 : pyStrip raw ≠ [])
    (h2 : pyFind (pyStrip raw) th = 0)
    (_h3 : tf ≠ [])
    (h4 : pyFind (pyStrip raw) tf = ((pyStrip raw).length : Int) - (tf.length : Int)) :
    detect (pyStrip raw) th tf = DetectionResult.AlreadyPresent
    ∧ newFileContent raw th tf = raw := by
  have hempty : (pyStrip raw).isEmpty = false := by
    cases hY : pyStrip raw
    · exact absurd hY h1
    · rfl
  have hdet : detect (pyStrip raw) th tf = DetectionResult.AlreadyPresent := by
    unfold detect
    rw [h2, h4, hempty]
    simp
  refine ⟨hdet, ?_⟩
  unfold newFileContent
  rw [(applyDetection_eq_none_iff _ _ _).mpr hdet]

/-- C3 witness: content `"H\nbody\nF"` with header `"H\n"` and footer
`"\nF"` is detected as already present and left unchanged. -/
theorem fileheaders_detect_already_present_witness :
    detect (pyStrip "H\nbody\nF".data) "H\n".data "\nF".data = DetectionResult.AlreadyPresent
    ∧ newFileContent "H\nbody\nF".data "H\n".data "\nF".data = "H\nbody\nF".data :=
  fileheaders_detect_already_present "H\nbody\nF".data "H\n".data "\nF".data
    (by decide) (by decide) (by decide) (by decide)

/-- C8: a file whose open raises `PermissionError` is reported and
skipped with its content untouched, and the rest of the batch is still
processed: the batch result around it is exactly the processing of the
files before and after it. A permission failure is never fatal. -/
theorem fileheaders_permission_denied_skips_file
    (opts : Options) (fi : FileInput) (pre post : List FileInput) :
    apply_footers_and_headers opts (pre ++ fi :: post)
      = apply_footers_and_headers opts pre
        ++ processFile opts fi :: apply_footers_and_headers opts post
    ∧ (fi.denied = true →
        (processFile opts fi).content = fi.raw
        ∧ (processFile opts fi).printedSkip = true
        ∧ (processFile opts fi).opened = false) := by
  constructor
  · simp [apply_footers_and_headers]
  · intro hd
    simp [processFile, hd]

/-- C8 witness: a denied file between two processed files is skipped
unchanged while both neighbours are processed. -/
theorem fileheaders_permission_denied_skips_file_witness :
    apply_footers_and_headers
        { header := "H".data, footer := "F".data, disable_tags := true, detect_header := true }
        ([{ denied := false, raw := "a".data, name := [], folder := [] }]
          ++ { denied := true, raw := "b".data, name := [], folder := [] }
            :: [{ denied := false, raw := "c".data, name := [], folder := [] }])
      = apply_footers_and_headers
          { header := "H".data, footer := "F".data, disable_tags := true, detect_header := true }
          [{ denied := false, raw := "a".data, name := [], folder := [] }]
        ++ processFile
            { header := "H".data, footer := "F".data, disable_tags := true, detect_header := true }
            { denied := true, raw := "b".data, name := [], folder := [] }
          :: apply_footers_and_headers
              { header := "H".data, footer := "F".data, disable_tags := true, detect_header := true }
              [{ denied := false, raw := "c".data, name := [], folder := [] }]
    ∧ (processFile
          { header := "H".data, footer := "F".data, disable_tags := true, detect_header := true }
          { denied := true, raw := "b".data, name := [], folder := [] }).content = "b".data
    ∧ (processFile
          { header := "H".data, footer := "F".data, disable_tags := true, detect_header := true }
          { denied := true, raw := "b".data, name := [], folder := [] }).printedSkip = true
    ∧ (processFile
          { header := "H".data, footer := "F".data, disable_tags := true, detect_header := true }
          { denied := true, raw := "b".data, name := [], folder := [] }).opened = false := by
  have h := fileheaders_permission_denied_skips_file
    { header := "H".data, footer := "F".data, disable_tags := true, detect_header := true }
    { denied := true, raw := "b".data, name := [], folder := [] }
    [{ denied := false, raw := "a".data, name := [], folder := [] }]
    [{ denied := false, raw := "c".data, name := [], folder := [] }]
  exact ⟨h.1, (h.2 rfl).1, (h.2 rfl).2.1, (h.2 rfl).2.2⟩

/-- C9 counterexample: a successfully opened file classified as already
having its header/footer leaves the loop body via `continue`, so
`close()` never runs on that path — exactly the path the claim singles
out as closed. -/
theorem fileheaders_already_present_path_skips_close :
    (processFile
        { header := "H".data, footer := "F".data, disable_tags := true, detect_header := true }
        { denied := false, raw := "HbodyF".data, name := [], folder := [] }).opened = true
    ∧ (processFile
        { header := "H".data, footer := "F".data, disable_tags := true, detect_header := true }
        { denied := false, raw := "HbodyF".data, name := [], folder := [] }).closed = false := by
  refine ⟨rfl, by decide⟩

/-- C9 amended: every successfully opened handle is closed before the
next file, except on the already-present path: the handle is left open
exactly when detection is enabled and classifies the stripped content as
`AlreadyPresent` (the `continue` path). -/
theorem fileheaders_handle_closed_except_already_present
    (opts : Options) (fi : FileInput) (hd : fi.denied = false) :
    (processFile opts fi).opened = true
    ∧ ((processFile opts fi).closed = false ↔
        opts.detect_header = true
        ∧ detect (pyStrip fi.raw)
            (applyTags opts.header fi.name fi.folder opts.disable_tags)
            (applyTags opts.footer fi.name fi.folder opts.disable_tags)
          = DetectionResult.AlreadyPresent) := by
  unfold processFile
  rw [hd]
  simp only [Bool.false_eq_true, if_false]
  cases hdh : opts.detect_header
  · simp
  · cases had : applyDetection (pyStrip fi.raw)
        (applyTags opts.header fi.name fi.folder opts.disable_tags)
        (applyTags opts.footer fi.name fi.folder opts.disable_tags)
    · simp [(applyDetection_eq_none_iff _ _ _).mp had]
    · have : detect (pyStrip fi.raw)
          (applyTags opts.header fi.name fi.folder opts.disable_tags)
          (applyTags opts.footer fi.name fi.folder opts.disable_tags)
          ≠ DetectionResult.AlreadyPresent := by
        intro hc
        rw [(applyDetection_eq_none_iff _ _ _).mpr hc] at had
        exact Option.noConfusion had
      simp [this]

/-- C9 amended witness: on a file that gets modified the handle is
closed, and the characterization holds at that input. -/
theorem fileheaders_handle_closed_except_already_present_witness :
    (processFile
        { header := "H".data, footer := "F".data, disable_tags := true, detect_header := true }
        { denied := false, raw := "body".data, name := [], folder := [] }).opened = true
    ∧ ((processFile
        { header := "H".data, footer := "F".data, disable_tags := true, detect_header := true }
        { denied := false, raw := "body".data, name := [], folder := [] }).closed = false ↔
        true = true
        ∧ detect (pyStrip "body".data)
            (applyTags "H".data [] [] true)
            (applyTags "F".data [] [] true)
          = DetectionResult.AlreadyPresent) :=
  fileheaders_handle_closed_except_already_present
    { header := "H".data, footer := "F".data, disable_tags := true, detect_header := true }
    { denied := false, raw := "body".data, name := [], folder := [] } rfl

/-- C4 counterexample: when a header file lacking a header block has left
`has_header_footer = HAS_FOOTER`, a whitespace-only footer makes the
whitespace policy abort with the empty-spec error even though the header
(here `"H"`, given on the command line) is non-empty — so the policy does
not fail exactly when both sides end up empty. -/
theorem fileheaders_ws_policy_spurious_abort :
    clearWS "H".data ≠ []
    ∧ wsAndEmptyCheck "H".data " ".data HAS_FOOTER false = Except.error () := by
  refine ⟨by decide, rfl⟩

/-- C4 amended: with whitespace disallowed and the parse state not
already footer-only (`hasIn ≠ HAS_FOOTER`), the policy clears each
whitespace-only side while leaving the other intact — `{"   ", "F"}`
becomes `{"", "F"}` with state `HAS_FOOTER` — and it fails with the
empty-spec error exactly when both sides end up empty; on that failure
the run leaves every target file untouched. When a footer-only header
file has set `hasIn = HAS_FOOTER`, a whitespace-only (or empty) footer
aborts even with a non-empty header. -/
theorem fileheaders_ws_policy_empty_iff
    (hdr ftr : List Char) (hasIn : Int) (dT dH : Bool) (fs : List FileInput)
    (hne : hasIn ≠ HAS_FOOTER) :
    (wsAndEmptyCheck hdr ftr hasIn false = Except.error ()
      ↔ (clearWS hdr = [] ∧ clearWS ftr = []))
    ∧ wsAndEmptyCheck "   ".data "F".data hasIn false
        = Except.ok ([], "F".data, HAS_FOOTER)
    ∧ (wsAndEmptyCheck hdr ftr hasIn false = Except.error ()
        → runFiles hdr ftr hasIn false dT dH fs = fs.map (·.raw)) := by
  have hbeq : (hasIn == (2 : Int)) = false := by
    have := beq_eq_false_iff_ne.mpr hne
    simpa [HAS_FOOTER] using this
  refine ⟨?_, rfl, ?_⟩
  · unfold wsAndEmptyCheck wsStep emptyCheck clearWS
    cases h1 : pyIsSpace hdr <;> cases h2 : pyIsSpace ftr
    · by_cases h3 : hdr = [] <;> by_cases h4 : ftr = [] <;>
        simp [List.isEmpty_iff, h3, h4, hbeq, HAS_FOOTER, HAS_HEADER]
    · by_cases h3 : hdr = [] <;>
        simp [List.isEmpty_iff, h3, hbeq, HAS_FOOTER, HAS_HEADER]
    · by_cases h4 : ftr = [] <;>
        simp [List.isEmpty_iff, h4, HAS_FOOTER, HAS_HEADER]
    · simp [HAS_FOOTER]
  · intro herr
    unfold runFiles
    rw [herr]

/-- C4 amended witness: the cleared-header example and the
exact-failure characterization at concrete inputs with a fresh state. -/
theorem fileheaders_ws_policy_empty_iff_witness :
    wsAndEmptyCheck "   ".data "F".data (-1) false = Except.ok ([], "F".data, HAS_FOOTER)
    ∧ (wsAndEmptyCheck "H".data "F".data (-1) false = Except.error ()
        ↔ (clearWS "H".data = [] ∧ clearWS "F".data = [])) := by
  have h := fileheaders_ws_policy_empty_iff "H".data "F".data (-1) true true [] (by decide)
  exact ⟨h.2.1, h.1⟩

/-! Slice arithmetic used for the header/footer block extraction. -/

lemma pyIdx_ofNat (n k : Nat) (hk : k ≤ n) : pyIdx n (k : Int) = k := by
  unfold pyIdx
  split <;> omega

lemma pySlice_mid (A mid rest : List Char) :
    pySlice ((A ++ mid) ++ rest) (A.length : Int) ((A.length : Int) + (mid.length : Int)) = mid := by
  unfold pySlice
  have h1 : pyIdx ((A ++ mid) ++ rest).length (A.length : Int) = A.length :=
    pyIdx_ofNat _ _ (by simp)
  have e2 : ((A.length : Int) + (mid.length : Int)) = (((A.length + mid.length : Nat)) : Int) := by
    push_cast
    ring
  have h2 : pyIdx ((A ++ mid) ++ rest).length ((A.length : Int) + (mid.length : Int))
      = A.length + mid.length := by
    rw [e2]
    exact pyIdx_ofNat _ _ (by simp)
  rw [h1, h2]
  rw [List.take_left' (by simp)]
  exact List.drop_left A mid

/-- C5: parsing a spec source extracts, independently for header and
footer, the text strictly between the corresponding marker lines (the
hypotheses say the first occurrences of the markers are exactly at their
structural positions); a side whose markers are not both present keeps
the prior (CLI/default) value without error; and parsing fails with the
empty-spec error precisely when neither side can be extracted. -/
theorem fileheaders_parse_spec_blocks :
    (∀ P mid S,
      pyIndexOpt (P ++ HEADER_START_TAG ++ '\n' :: mid ++ '\n' :: HEADER_END_TAG ++ S)
          HEADER_START_TAG = some P.length →
      pyIndexOpt (P ++ HEADER_START_TAG ++ '\n' :: mid ++ '\n' :: HEADER_END_TAG ++ S)
          HEADER_END_TAG
        = some (P.length + HEADER_START_TAG.length + 1 + mid.length + 1) →
      extractHeader (P ++ HEADER_START_TAG ++ '\n' :: mid ++ '\n' :: HEADER_END_TAG ++ S)
        = some mid)
    ∧ (∀ P mid S,
      pyIndexOpt (P ++ FOOTER_START_TAG ++ '\n' :: mid ++ '\n' :: FOOTER_END_TAG ++ S)
          FOOTER_START_TAG = some P.length →
      pyIndexOpt (P ++ FOOTER_START_TAG ++ '\n' :: mid ++ '\n' :: FOOTER_END_TAG ++ S)
          FOOTER_END_TAG
        = some (P.length + FOOTER_START_TAG.length + 1 + mid.length + 1) →
      extractFooter (P ++ FOOTER_START_TAG ++ '\n' :: mid ++ '\n' :: FOOTER_END_TAG ++ S)
        = some mid)
    ∧ (∀ content h0 f0, parseHeaderFileContent content h0 f0 = Except.error ()
        ↔ (extractHeader content = none ∧ extractFooter content = none))
    ∧ (∀ content h0 f0 f, extractHeader content = none → extractFooter content = some f →
        parseHeaderFileContent content h0 f0 = Except.ok (h0, f, HAS_FOOTER))
    ∧ (∀ content h0 f0 h, extractHeader content = some h → extractFooter content = none →
        parseHeaderFileContent content h0 f0 = Except.ok (h, f0, HAS_HEADER)) := by
  refine ⟨?_, ?_, ?_, ?_, ?_⟩
  · intro P mid S hi hj
    unfold extractHeader
    rw [hi, hj]
    simp only [Option.some.injEq]
    have e1 : ((P.length : Int) + (HEADER_START_TAG.length : Int) + 1)
        = (((P ++ HEADER_START_TAG ++ ['\n']).length : Nat) : Int) := by
      simp [List.length_append]
      ring
    have e2 : ((↑(P.length + HEADER_START_TAG.length + 1 + mid.length + 1) : Int) - 1)
        = (((P ++ HEADER_START_TAG ++ ['\n']).length : Nat) : Int) + (mid.length : Int) := by
      simp [List.length_append]
      ring
    rw [e1, e2]
    have hC : P ++ HEADER_START_TAG ++ '\n' :: mid ++ '\n' :: HEADER_END_TAG ++ S
        = (((P ++ HEADER_START_TAG ++ ['\n']) ++ mid) ++ (('\n' :: HEADER_END_TAG) ++ S)) := by
      simp [List.append_assoc]
    rw [hC]
    exact pySlice_mid _ _ _
  · intro P mid S hi hj
    unfold extractFooter
    rw [hi, hj]
    simp only [Option.some.injEq]
    have e1 : ((P.length : Int) + (FOOTER_START_TAG.length : Int) + 1)
        = (((P ++ FOOTER_START_TAG ++ ['\n']).length : Nat) : Int) := by
      simp [List.length_append]
      ring
    have e2 : ((↑(P.length + FOOTER_START_TAG.length + 1 + mid.length + 1) : Int) - 1)
        = (((P ++ FOOTER_START_TAG ++ ['\n']).length : Nat) : Int) + (mid.length : Int) := by
      simp [List.length_append]
      ring
    rw [e1, e2]
    have hC : P ++ FOOTER_START_TAG ++ '\n' :: mid ++ '\n' :: FOOTER_END_TAG ++ S
        = (((P ++ FOOTER_START_TAG ++ ['\n']) ++ mid) ++ (('\n' :: FOOTER_END_TAG) ++ S)) := by
      simp [List.append_assoc]
    rw [hC]
    exact pySlice_mid _ _ _
  · intro content h0 f0
    cases hx : extractHeader content <;> cases hy : extractFooter content <;>
      simp [parseHeaderFileContent, hx, hy]
  · intro content h0 f0 f hx hy
    simp [parseHeaderFileContent, hx, hy]
  · intro content h0 f0 h hx hy
    simp [parseHeaderFileContent, hx, hy]

/-- C5 witness: concrete spec sources with a header block, a footer
block, and no markers at all. -/
theorem fileheaders_parse_spec_blocks_witness :
    extractHeader (([] : List Char) ++ HEADER_START_TAG ++ '\n' :: "my header".data
        ++ '\n' :: HEADER_END_TAG ++ ([] : List Char)) = some "my header".data
    ∧ extractFooter (([] : List Char) ++ FOOTER_START_TAG ++ '\n' :: "the footer".data
        ++ '\n' :: FOOTER_END_TAG ++ ([] : List Char)) = some "the footer".data
    ∧ parseHeaderFileContent "no markers here".data "h0".data "f0".data = Except.error () := by
  refine ⟨fileheaders_parse_spec_blocks.1 [] "my header".data [] (by decide) (by decide),
    fileheaders_parse_spec_blocks.2.1 [] "the footer".data [] (by decide) (by decide),
    (fileheaders_parse_spec_blocks.2.2.1 "no markers here".data "h0".data "f0".data).mpr
      ⟨by decide, by decide⟩⟩

/-! Correctness of the embedded `str.replace`. -/

lemma isPrefixOfAppend (l t : List Char) : l.isPrefixOf (l ++ t) = true := by
  rw [List.isPrefixOf_iff_prefix]
  exact List.prefix_append l t

lemma replaceLoop_fuel_eq (old new : List Char) :
    ∀ (f1 : Nat) (s : List Char) (f2 : Nat), s.length ≤ f1 → s.length ≤ f2 →
      replaceLoop old new f1 s = replaceLoop old new f2 s := by
  intro f1
  induction f1 with
  | zero =>
    intro s f2 h1 h2
    have hs : s = [] := by
      cases s with
      | nil => rfl
      | cons c rest => simp at h1
    subst hs
    simp [replaceLoop]
  | succ n ih =>
    intro s f2 h1 h2
    cases s with
    | nil => simp [replaceLoop]
    | cons c rest =>
      cases f2 with
      | zero => simp at h2
      | succ m =>
        simp only [replaceLoop]
        by_cases hcond : (!old.isEmpty && old.isPrefixOf (c :: rest)) = true
        · rw [if_pos hcond, if_pos hcond]
          congr 1
          have hd : (rest.drop (old.length - 1)).length = rest.length - (old.length - 1) :=
            List.length_drop _ _
          apply ih
          · simp at h1
            omega
          · simp at h2
            omega
        · rw [if_neg hcond, if_neg hcond]
          congr 1
          apply ih
          · simp at h1
            omega
          · simp at h2
            omega

lemma replaceLoop_of_findSub_none (old new : List Char) :
    ∀ (s : List Char) (fuel : Nat), findSub old s = none →
      replaceLoop old new fuel s = s := by
  intro s
  induction s with
  | nil =>
    intro fuel _
    simp [replaceLoop]
  | cons c rest ih =>
    intro fuel h
    simp only [findSub] at h
    have hpre : old.isPrefixOf (c :: rest) = false := by
      cases hy : old.isPrefixOf (c :: rest)
      · rfl
      · rw [if_pos hy] at h
        exact Option.noConfusion h
    rw [if_neg (by simp [hpre])] at h
    have hrest : findSub old rest = none := by
      cases hx : findSub old rest
      · rfl
      · rw [hx] at h
        simp at h
    cases fuel with
    | zero => simp [replaceLoop]
    | succ m =>
      simp only [replaceLoop]
      rw [if_neg (by simp [hpre])]
      rw [ih m hrest]

lemma replaceLoop_split (old new : List Char) (hold : old ≠ []) :
    ∀ (a b : List Char) (fuel : Nat), (a ++ (old ++ b)).length ≤ fuel →
      findSub old (a ++ (old ++ b)) = some a.length →
      replaceLoop old new fuel (a ++ (old ++ b))
        = a ++ (new ++ replaceLoop old new b.length b) := by
  intro a
  induction a with
  | nil =>
    intro b fuel hlen _
    cases old with
    | nil => exact absurd rfl hold
    | cons o ot =>
      cases fuel with
      | zero => simp at hlen
      | succ m =>
        simp only [List.nil_append] at hlen ⊢
        have hshape : (o :: ot) ++ b = o :: (ot ++ b) := rfl
        rw [hshape]
        simp only [replaceLoop]
        rw [if_pos (by simp [hshape ▸ isPrefixOfAppend (o :: ot) b])]
        have hdrop : (ot ++ b).drop ((o :: ot).length - 1) = b := by
          simp only [List.length_cons, Nat.add_sub_cancel]
          exact List.drop_left ot b
        rw [hdrop]
        have hm : b.length ≤ m := by
          simp at hlen
          omega
        rw [replaceLoop_fuel_eq (o :: ot) new m b b.length hm (Nat.le_refl _)]
  | cons c a' ih =>
    intro b fuel hlen hfind
    have hstep : (c :: a') ++ (old ++ b) = c :: (a' ++ (old ++ b)) := rfl
    rw [hstep] at hlen hfind ⊢
    simp only [findSub] at hfind
    by_cases hpre : old.isPrefixOf (c :: (a' ++ (old ++ b))) = true
    · rw [if_pos hpre] at hfind
      simp at hfind
    · rw [if_neg hpre] at hfind
      have hfind' : findSub old (a' ++ (old ++ b)) = some a'.length := by
        cases hx : findSub old (a' ++ (old ++ b)) with
        | none =>
          rw [hx] at hfind
          simp at hfind
        | some n =>
          rw [hx] at hfind
          simp at hfind
          rw [hfind]
      cases fuel with
      | zero => simp at hlen
      | succ m =>
        simp only [replaceLoop]
        have hprefalse : old.isPrefixOf (c :: (a' ++ (old ++ b))) = false := by
          cases hy : old.isPrefixOf (c :: (a' ++ (old ++ b)))
          · rfl
          · exact absurd hy hpre
        rw [if_neg (by simp [hprefalse])]
        have hm : (a' ++ (old ++ b)).length ≤ m := by
          simp at hlen ⊢
          omega
        rw [ih b m hm hfind']
        rfl

/-- C6: tag substitution. With tags disabled the text is unchanged; with
tags enabled it is the literal left-to-right replacement of `{FILE_NAME}`
by the file name and then `{FOLDER_NAME}` by the folder name, where the
embedded replacement provably leaves text without an occurrence unchanged
and rewrites every occurrence: when the first occurrence of `old` in
`a ++ old ++ b` is at `a.length`, the result is `a ++ new ++` the
replacement of the remainder `b`. The spec's concrete example follows. -/
theorem fileheaders_tag_substitution :
    (∀ t n fo, applyTags t n fo true = t)
    ∧ (∀ t n fo, applyTags t n fo false
        = pyReplace (pyReplace t FILE_NAME_TAG n) FOLDER_NAME_TAG fo)
    ∧ (∀ s old new, findSub old s = none → pyReplace s old new = s)
    ∧ (∀ a b old new, old ≠ [] → findSub old (a ++ (old ++ b)) = some a.length →
        pyReplace (a ++ (old ++ b)) old new = a ++ (new ++ pyReplace b old new))
    ∧ applyTags "{FILE_NAME} and {FOLDER_NAME}".data "a.txt".data "src".data false
        = "a.txt and src".data := by
  refine ⟨fun t n fo => rfl, fun t n fo => rfl, ?_, ?_, by decide⟩
  · intro s old new h
    exact replaceLoop_of_findSub_none old new s s.length h
  · intro a b old new hold hfind
    exact replaceLoop_split old new hold a b (a ++ (old ++ b)).length (Nat.le_refl _) hfind

/-- C6 witness: replacement leaves tag-free text unchanged and rewrites a
concrete occurrence in place. -/
theorem fileheaders_tag_substitution_witness :
    pyReplace "no tags".data FILE_NAME_TAG "x".data = "no tags".data
    ∧ pyReplace ("ab".data ++ (FILE_NAME_TAG ++ "cd".data)) FILE_NAME_TAG "x".data
      = "ab".data ++ ("x".data ++ pyReplace "cd".data FILE_NAME_TAG "x".data) := by
  refine ⟨fileheaders_tag_substitution.2.2.1 "no tags".data FILE_NAME_TAG "x".data (by decide),
    fileheaders_tag_substitution.2.2.2.1 "ab".data "cd".data FILE_NAME_TAG "x".data
      (by decide) (by decide)⟩

lemma filter_buildUnsigned (ds : List Char) (h : ∀ c ∈ ds, c ≠ '_') :
    ∀ i, (buildUnsigned i ds).filter (fun c => c != '_') = ds := by
  induction ds with
  | nil =>
    intro i
    simp [buildUnsigned]
  | cons d rest ih =>
    intro i
    have hd' : d ≠ '_' := h d (List.mem_cons_self d rest)
    have hdb : (d != '_') = true := by simp [hd']
    have hu : (('_' : Char) != '_') = false := by decide
    have hrest := ih (fun c hc => h c (List.mem_cons_of_mem d hc)) (i + 1)
    cases h8 : (i % 8 == 0 : Bool) <;>
      simp [buildUnsigned, h8, List.filter_cons, hdb, hu, hrest]

lemma stripLiteral_unsigned (ds : List Char) (h : ∀ c ∈ ds, c = '0' ∨ c = '1') :
    stripLiteral (unsignedNumerical ds) = ds := by
  unfold stripLiteral unsignedNumerical
  simp only [List.drop_succ_cons, List.drop_zero]
  exact filter_buildUnsigned ds
    (fun c hc => by rcases h c hc with h0 | h0 <;> simp [h0]) 0

lemma chunks_flatten : ∀ (n : Nat) (l : List Char), l.length = 8 * n →
    ((List.range n).reverse.map (fun i => (l.drop (8 * n - (i + 1) * 8)).take 8)).flatten = l := by
  intro n
  induction n with
  | zero =>
    intro l h
    have hl : l = [] := by
      cases l
      · rfl
      · simp at h
    subst hl
    simp
  | succ k ih =>
    intro l h
    rw [List.range_succ, List.reverse_append]
    simp only [List.reverse_cons, List.reverse_nil, List.nil_append, List.singleton_append,
      List.map_cons, List.flatten_cons]
    have h1 : 8 * (k + 1) - (k + 1) * 8 = 0 := by omega
    rw [h1, List.drop_zero]
    have h2 : ((List.range k).reverse.map (fun i => (l.drop (8 * (k + 1) - (i + 1) * 8)).take 8))
        = ((List.range k).reverse.map (fun i => ((l.drop 8).drop (8 * k - (i + 1) * 8)).take 8)) := by
      apply List.map_congr_left
      intro i hi
      have hik : i < k := by
        rw [List.mem_reverse, List.mem_range] at hi
        exact hi
      have h3 : 8 * (k + 1) - (i + 1) * 8 = 8 + (8 * k - (i + 1) * 8) := by omega
      rw [h3, ← List.drop_drop]
    rw [h2]
    rw [ih (l.drop 8) (by rw [List.length_drop]; omega)]
    exact List.take_append_drop 8 l

/-- C10: for any 64 generated binary digits, the digit part of the
printed binary literal (drop `0b`, remove underscores) is the digit list
itself; the `i`-th printed byte consists of digits `64-8*(i+1)` through
`64-8*(i+1)+7` of that digit sequence; and concatenating the printed
bytes from last to first reproduces the whole digit sequence. -/
theorem bitgen_bytes_regroup_literal (ds : List Char) (hlen : ds.length = 64)
    (hd : ∀ c ∈ ds, c = '0' ∨ c = '1') :
    stripLiteral (unsignedNumerical ds) = ds
    ∧ (∀ i, i < 8 → byteChunk ds i
        = ((stripLiteral (unsignedNumerical ds)).drop (64 - 8 * (i + 1))).take 8)
    ∧ ((List.range 8).reverse.map (byteChunk ds)).flatten
        = stripLiteral (unsignedNumerical ds) := by
  have hstrip : stripLiteral (unsignedNumerical ds) = ds := stripLiteral_unsigned ds hd
  refine ⟨hstrip, ?_, ?_⟩
  · intro i _
    rw [hstrip]
    simp [byteChunk, Nat.mul_comm]
  · rw [hstrip]
    have hb : (List.range 8).reverse.map (byteChunk ds)
        = (List.range 8).reverse.map (fun i => (ds.drop (8 * 8 - (i + 1) * 8)).take 8) := by
      apply List.map_congr_left
      intro i _
      simp [byteChunk]
    rw [hb]
    exact chunks_flatten 8 ds (by omega)

/-- C10 witness: the regrouping at a concrete digit pattern (32 zeros
followed by 32 ones). -/
theorem bitgen_bytes_regroup_literal_witness :
    ((List.range 8).reverse.map
        (byteChunk (List.replicate 32 '0' ++ List.replicate 32 '1'))).flatten
      = stripLiteral (unsignedNumerical (List.replicate 32 '0' ++ List.replicate 32 '1')) :=
  (bitgen_bytes_regroup_literal (List.replicate 32 '0' ++ List.replicate 32 '1')
    (by decide) (by decide)).2.2
